import Mathlib

/-!
Shallow embedding of the ClipCut bot (`bot.js`): timestamp parsing, URL
extraction, the in-memory pending-request store, the two Telegram handlers,
and the download/cut/size-check/upload pipeline with its cleanup block.

Strings are modelled as Lean `String` / `List Char`.  JavaScript's `Number`
coercion is modelled for the string shapes that can reach it here (groups
split on `:` / `.`, hence sign + decimal digits, or the empty string which
JavaScript coerces to 0); exotic JS numeric literal forms (hexadecimal,
exponent notation, `Infinity`) are outside the model and rejected as NaN.
-/

/-- JavaScript whitespace class (`\s`, also the set trimmed by
`String.prototype.trim` and by `Number` coercion). -/
def isJsSpaceB (c : Char) : Bool :=
  let n := c.toNat
  (9 ≤ n && n ≤ 13) || n == 32 || n == 160 || n == 0x1680 ||
  (0x2000 ≤ n && n ≤ 0x200a) || n == 0x2028 || n == 0x2029 ||
  n == 0x202f || n == 0x205f || n == 0x3000 || n == 0xfeff

/-- ASCII digit, the JS regex `\d` class. -/
def isDigitB (c : Char) : Bool := 48 ≤ c.toNat && c.toNat ≤ 57

/-- The separator class `[:.]` used by `normaliseTimestamp` / `extractTimestamps`. -/
def isSepB (c : Char) : Bool := c == ':' || c == '.'

/-- Remove JS whitespace from both ends (JS `String.prototype.trim`). -/
def trimL (l : List Char) : List Char :=
  ((l.dropWhile isJsSpaceB).reverse.dropWhile isJsSpaceB).reverse

/-- Embeds `raw.trim()` at the `String` level. -/
def jsTrim (s : String) : String := ⟨trimL s.data⟩

/-- JS `str.split(re)` for a single-character class `re`: splits at every
separator, keeping empty groups (`"a::b" → ["a","","b"]`, `"" → [""]`). -/
def splitBy (p : Char → Bool) : List Char → List (List Char)
  | [] => [[]]
  | c :: rest =>
    if p c then [] :: splitBy p rest
    else
      match splitBy p rest with
      | [] => [[c]]
      | g :: gs => (c :: g) :: gs

/-- Decimal value of a digit string (big-endian), as JS `Number` computes it. -/
def digitsVal (l : List Char) : Nat :=
  l.foldl (fun acc c => 10 * acc + (c.toNat - 48)) 0

/-- Parse a non-empty all-digit string; anything else is NaN (`none`). -/
def parseDigitsL (l : List Char) : Option Int :=
  if l.isEmpty then none
  else if l.all isDigitB then some (Int.ofNat (digitsVal l)) else none

/-- JS `Number(string)` on the group strings reachable in `bot.js`:
whitespace-trimmed; empty coerces to `0`; optional sign followed by decimal
digits; everything else is NaN (`none`).  (Hexadecimal / exponent /
`Infinity` literal forms of full JS `Number` are outside the model.) -/
def jsNumberL (g : List Char) : Option Int :=
  match trimL g with
  | [] => some 0
  | '+' :: ds => parseDigitsL ds
  | '-' :: ds => (parseDigitsL ds).map (fun v => -v)
  | ds => parseDigitsL ds

/-- Embeds `parts.some(isNaN)` folded into sequencing: `none` iff some group is NaN. -/
def seqOptions : List (Option Int) → Option (List Int)
  | [] => some []
  | none :: _ => none
  | some v :: rest => (seqOptions rest).map (fun vs => v :: vs)

/-- JS `String(n)` for a non-negative number: decimal digits. -/
def natDecimal (n : Nat) : List Char := Nat.toDigits 10 n

/-- JS `String(n).padStart(2, '0')`. -/
def padStart2 (l : List Char) : List Char :=
  if l.length < 2 then List.replicate (2 - l.length) '0' ++ l else l

/-- The template `` `${pad(hours)}:${pad(minutes)}:${pad(seconds)}` ``. -/
def fmtHMS (h m s : Nat) : String :=
  ⟨padStart2 (natDecimal h) ++ (':' :: (padStart2 (natDecimal m) ++ (':' :: padStart2 (natDecimal s))))⟩

/-- Range check and formatting tail of `normaliseTimestamp` (`bot.js` 112-117). -/
def checkAndFmt (h m s : Int) : Option String :=
  if s < 0 || s > 59 || m < 0 || m > 59 || h < 0 then none
  else some (fmtHMS h.toNat m.toNat s.toNat)

/-- Embeds `normaliseTimestamp(raw)` (`bot.js` 91-118): trim, split on `[:.]`,
coerce each group with `Number`, reject NaN groups, destructure by group
count (3 = h:m:s, 2 = m:s, 1 = s, otherwise null), range-check, zero-pad. -/
def normaliseTimestamp (raw : String) : Option String :=
  let parts := splitBy isSepB (trimL raw.data)
  match seqOptions (parts.map jsNumberL) with
  | none => none
  | some vals =>
    match vals with
    | [h, m, s] => checkAndFmt h m s
    | [m, s] => checkAndFmt 0 m s
    | [s] => checkAndFmt 0 0 s
    | _ => none

/-- Embeds `toSeconds(hhmmss)` (`bot.js` 149-152): split on `:`, `h*3600+m*60+s`.
A non-3-part or non-numeric input would be NaN in JS; the model returns 0
there (such inputs never reach `toSeconds` in the program). -/
def toSeconds (hhmmss : String) : Int :=
  match (splitBy (fun c => c == ':') hhmmss.data).map jsNumberL with
  | [some h, some m, some s] => h * 3600 + m * 60 + s
  | _ => 0

/-! ### Timestamp candidate scan

Embedding of `text.match(/(\d{1,2}(?:[:.]\d{1,2}){1,2})/g)` (`bot.js` 132-133):
a backtracking matcher for this one pattern, scanned left to right with
non-overlapping continuation, exactly as a JS global regex match does. -/

/-- Number of leading ASCII digits, capped nowhere (callers cap at 2). -/
def leadDigits (cs : List Char) : Nat := (cs.takeWhile isDigitB).length

/-- One repetition `[:.]\d{1,2}`: a separator then greedily 2 digits else 1.
Returns consumed length. -/
def tsRep (cs : List Char) : Option Nat :=
  match cs with
  | [] => none
  | c :: rest =>
    if isSepB c then
      match leadDigits rest with
      | 0 => none
      | 1 => some 2
      | _ => some 3
    else none

/-- Embeds `(?:[:.]\d{1,2}){1,2}` greedy: two repetitions if possible, else one. -/
def tsReps (cs : List Char) : Option Nat :=
  match tsRep cs with
  | none => none
  | some n1 =>
    match tsRep (cs.drop n1) with
    | some n2 => some (n1 + n2)
    | none => some n1

/-- Match the whole pattern at the head of `cs`: `\d{1,2}` greedy (2 digits,
backtracking to 1) followed by `tsReps`.  Returns the match length. -/
def tsMatchAt (cs : List Char) : Option Nat :=
  let try2 :=
    if 2 ≤ leadDigits cs then (tsReps (cs.drop 2)).map (fun n => 2 + n)
    else none
  match try2 with
  | some n => some n
  | none =>
    if 1 ≤ leadDigits cs then (tsReps (cs.drop 1)).map (fun n => 1 + n)
    else none

/-- Global scan: leftmost match, then continue after the matched substring.
`fuel` bounds the recursion; with `fuel ≥ cs.length` it is the JS scan. -/
def tsScan : Nat → List Char → List String
  | 0, _ => []
  | _ + 1, [] => []
  | fuel + 1, c :: rest =>
    match tsMatchAt (c :: rest) with
    | some n => String.mk ((c :: rest).take n) :: tsScan fuel ((c :: rest).drop n)
    | none => tsScan fuel rest

/-- All candidate timestamp substrings of `text`, left to right. -/
def tsMatches (text : String) : List String := tsScan text.data.length text.data

/-- A start/end pair as produced by `extractTimestamps`. -/
structure TsPair where
  startTime : String
  endTime : String
deriving DecidableEq

/-- Embeds `extractTimestamps(text)` (`bot.js` 129-144): all pattern matches; null if
fewer than two; normalise the first two; null if either fails. -/
def extractTimestamps (text : String) : Option TsPair :=
  match tsMatches text with
  | m0 :: m1 :: _ =>
    match normaliseTimestamp m0, normaliseTimestamp m1 with
    | some s, some e => some ⟨s, e⟩
    | _, _ => none
  | _ => none

/-! ### YouTube URL extraction

Embedding of `extractYouTubeUrl` (`bot.js` 70-74): the case-insensitive regex

`(?:https?:\/\/)?(?:www\.)?(?:youtube\.com\/(?:watch\?[^\s]*v=[^\s&]+|shorts\/[^\s?]+|live\/[^\s?]+)|youtu\.be\/[^\s?]+)(?:[^\s]*)?`

matched non-globally (first match), with the matched substring returned. -/

/-- ASCII lowercase fold, the effect of the `/i` flag on the literals here. -/
def lowerAscii (c : Char) : Char :=
  if 65 ≤ c.toNat && c.toNat ≤ 90 then Char.ofNat (c.toNat + 32) else c

/-- Consume a literal case-insensitively; return the remaining input. -/
def litCI : List Char → List Char → Option (List Char)
  | [], cs => some cs
  | _ :: _, [] => none
  | l :: ls, c :: cs => if lowerAscii c == lowerAscii l then litCI ls cs else none

/-- Embeds `[^\s]` as a Bool predicate. -/
def notSpaceB (c : Char) : Bool := !isJsSpaceB c

/-- Embeds `[^\s&]`. -/
def notSpaceAmpB (c : Char) : Bool := !isJsSpaceB c && c != '&'

/-- Embeds `[^\s?]`. -/
def notSpaceQmB (c : Char) : Bool := !isJsSpaceB c && c != '?'

/-- Embeds `p+` greedy: consumed length if at least one char matches, else none. -/
def plusCount (p : Char → Bool) (cs : List Char) : Option Nat :=
  match (cs.takeWhile p).length with
  | 0 => none
  | n + 1 => some (n + 1)

/-- Length of the trailing `(?:[^\s]*)?`: everything up to whitespace. -/
def tailRun (cs : List Char) : Nat := (cs.takeWhile notSpaceB).length

/-- Embeds `[^\s?]+` then the trailing run (used after `shorts/`, `live/`, `youtu.be/`). -/
def qTail (cs : List Char) : Option Nat :=
  match plusCount notSpaceQmB cs with
  | none => none
  | some b => some (b + tailRun (cs.drop b))

/-- One split attempt for `watch?`'s `[^\s]*v=[^\s&]+` tail: `[^\s]*` takes
`k` chars, then `v=`, then `[^\s&]+`, then the trailing run. -/
def watchAt (cs : List Char) (k : Nat) : Option Nat :=
  match litCI ['v', '='] (cs.drop k) with
  | none => none
  | some rest2 =>
    match plusCount notSpaceAmpB rest2 with
    | none => none
    | some b => some (k + 2 + b + tailRun (rest2.drop b))

/-- Greedy backtracking over the `[^\s]*` split, longest first. -/
def watchSplit (cs : List Char) : Nat → Option Nat
  | 0 => watchAt cs 0
  | k + 1 =>
    match watchAt cs (k + 1) with
    | some n => some n
    | none => watchSplit cs k

/-- The tail after the literal `watch?`. -/
def watchTail (cs : List Char) : Option Nat :=
  watchSplit cs (cs.takeWhile notSpaceB).length

/-- The `youtu.be/...` alternative. -/
def matchYoutuBe (cs : List Char) : Option Nat :=
  match litCI "youtu.be/".data cs with
  | some rest => (qTail rest).map (fun n => 9 + n)
  | none => none

/-- The big alternation: `youtube.com/(watch?...|shorts/...|live/...)` first,
then `youtu.be/...`. -/
def matchBodyAt (cs : List Char) : Option Nat :=
  match litCI "youtube.com/".data cs with
  | some rest =>
    match litCI "watch?".data rest with
    | some r2 =>
      match (watchTail r2).map (fun n => 18 + n) with
      | some n => some n
      | none => matchYoutuBe cs
    | none =>
      match litCI "shorts/".data rest with
      | some r2 =>
        match (qTail r2).map (fun n => 19 + n) with
        | some n => some n
        | none => matchYoutuBe cs
      | none =>
        match litCI "live/".data rest with
        | some r2 =>
          match (qTail r2).map (fun n => 17 + n) with
          | some n => some n
          | none => matchYoutuBe cs
        | none => matchYoutuBe cs
  | none => matchYoutuBe cs

/-- Optional `www.` (greedy: with it first, backtracking to without). -/
def matchWwwBody (cs : List Char) : Option Nat :=
  match litCI "www.".data cs with
  | some rest =>
    match matchBodyAt rest with
    | some n => some (4 + n)
    | none => matchBodyAt cs
  | none => matchBodyAt cs

/-- Optional scheme `https?://` (greedy: `https://`, then `http://`, then none). -/
def matchUrlAt (cs : List Char) : Option Nat :=
  match litCI "https://".data cs with
  | some rest =>
    match matchWwwBody rest with
    | some n => some (8 + n)
    | none => matchUrlNoHttps cs
  | none => matchUrlNoHttps cs
where
  matchUrlNoHttps (cs : List Char) : Option Nat :=
    match litCI "http://".data cs with
    | some rest =>
      match matchWwwBody rest with
      | some n => some (7 + n)
      | none => matchWwwBody cs
    | none => matchWwwBody cs

/-- First (leftmost) match of the URL regex: the matched substring. -/
def firstUrlMatch : List Char → Option (List Char)
  | [] => none
  | c :: rest =>
    match matchUrlAt (c :: rest) with
    | some n => some ((c :: rest).take n)
    | none => firstUrlMatch rest

/-- Embeds `extractYouTubeUrl(text)` (`bot.js` 70-74). -/
def extractYouTubeUrl (text : String) : Option String :=
  (firstUrlMatch text.data).map String.mk

/-! ### Session store and Telegram handlers

`pendingRequests` (`bot.js` 60) is a plain object keyed by `chatId`; we model
it as an association list with object semantics: assignment overwrites,
`delete` removes, lookup finds the unique entry. -/

/-- A stored pending request (`bot.js` 53-59). -/
structure PendingRequest where
  url : String
  startTime : String
  endTime : String
deriving DecidableEq

/-- The `pendingRequests` object. -/
abbrev Store := List (Int × PendingRequest)

/-- Embeds `pendingRequests[chatId]` (undefined → none). -/
def storeGet (s : Store) (chatId : Int) : Option PendingRequest :=
  match s.find? (fun e => e.1 == chatId) with
  | some e => some e.2
  | none => none

/-- Embeds `pendingRequests[chatId] = req` (overwrite). -/
def storePut (s : Store) (chatId : Int) (r : PendingRequest) : Store :=
  (chatId, r) :: s.filter (fun e => e.1 != chatId)

/-- Embeds `delete pendingRequests[chatId]`. -/
def storeErase (s : Store) (chatId : Int) : Store :=
  s.filter (fun e => e.1 != chatId)

/-- Reject message for `start >= end` (`bot.js` 383-387). -/
def rejectOrderMsg (startTime endTime : String) : String :=
  "⚠️  The start time must be before the end time.\n\nYou sent: " ++
  startTime ++ " → " ++ endTime ++ "\n\nPlease try again."

/-- Format prompt (`bot.js` 395-399). -/
def askFormatMsg (url startTime endTime : String) : String :=
  "🎯  Got it!\n\n📎  " ++ url ++ "\n⏱  " ++ startTime ++ " → " ++ endTime ++
  "\n\nWhat format do you want?"

/-- URL present, timestamps missing (`bot.js` 414-423). -/
def urlOnlyMsg : String :=
  "👍  I see the YouTube link!\n\nNow please also include the **start** and **end** timestamps.\n\nExamples:\n• `from 1:20 to 2:45`\n• `20.50 to 21.30`\n• `0:00 to 0:30`\n\nYou can include everything in one message, like:\n`https://youtube.com/... from 1:20 to 2:45`"

/-- Timestamps present, URL missing (`bot.js` 430-435). -/
def tsOnlyMsg : String :=
  "👍  I see the timestamps!\n\nPlease also include a **YouTube link** in your message.\n\nExample:\n`https://youtube.com/watch?v=... from 1:20 to 2:45`"

/-- Generic help (`bot.js` 443-452). -/
def helpMsg : String :=
  "👋  Hi! I\x27m **ClipCut** — I cut clips from YouTube videos.\n\n**How to use me:**\nSend a message with a YouTube link and the start/end times.\n\n**Examples:**\n• `https://youtube.com/watch?v=abc from 1:20 to 2:45`\n• `https://youtu.be/abc 20.50 to 21.30`\n• `Please cut from 0:10 to 0:40 https://youtube.com/watch?v=abc`\n\nI\x27ll then ask if you want 🎵 audio or 🎬 video!"

/-- The `bot.on('message')` handler for a text message (`bot.js` 364-454):
returns the updated store and the message sent back. -/
def onMessage (store : Store) (chatId : Int) (msgText : String) : Store × String :=
  let text := jsTrim msgText
  match extractYouTubeUrl text, extractTimestamps text with
  | some url, some p =>
    if toSeconds p.startTime ≥ toSeconds p.endTime then
      (store, rejectOrderMsg p.startTime p.endTime)
    else
      (storePut store chatId ⟨url, p.startTime, p.endTime⟩,
       askFormatMsg url p.startTime p.endTime)
  | some _, none => (store, urlOnlyMsg)
  | none, some _ => (store, tsOnlyMsg)
  | none, none => (store, helpMsg)

/-- No-pending-request rejection (`bot.js` 468-471). -/
def noPendingMsg : String :=
  "⚠️  I don\x27t have a pending request for you.\n\nPlease send a YouTube link with timestamps first."

/-- Initial status message for a started pipeline (`bot.js` 498). -/
def processingMsg : String := "⏳  Processing your clip…"

/-- Observable effects of one `callback_query` event. -/
structure CbEffect where
  acked : Bool
  sentMessage : Option String
  removedKeyboard : Bool
  pipeline : Option (String × String × String × String)
deriving DecidableEq

/-- The `bot.on('callback_query')` handler (`bot.js` 458-502): acknowledge,
check the pending request (rejecting when absent), classify the data
(silently ignoring unknown values), consume the request and start the
pipeline.  `pipeline` carries `(url, startTime, endTime, mode)`. -/
def onCallback (store : Store) (chatId : Int) (data : String) : Store × CbEffect :=
  match storeGet store chatId with
  | none =>
    (store, { acked := true, sentMessage := some noPendingMsg,
              removedKeyboard := false, pipeline := none })
  | some r =>
    if data == "format_audio" then
      (storeErase store chatId,
       { acked := true, sentMessage := some processingMsg, removedKeyboard := true,
         pipeline := some (r.url, r.startTime, r.endTime, "audio") })
    else if data == "format_video" then
      (storeErase store chatId,
       { acked := true, sentMessage := some processingMsg, removedKeyboard := true,
         pipeline := some (r.url, r.startTime, r.endTime, "video") })
    else
      (store, { acked := true, sentMessage := none,
                removedKeyboard := false, pipeline := none })

/-! ### Pipeline (`processClip`, `bot.js` 184-311)

Filesystem and external tools are oracles: a `PipeEnv` fixes the results the
invocation would observe (tool exit status, stderr text, probe result, output
file size, upload success).  The `try`-block is `Except String` (the thrown
`Error` messages); the `catch` classifies the message; the `finally` is the
cleanup applied to a small model of the temp directory. -/

/-- Embeds `TELEGRAM_FILE_LIMIT` (`bot.js` 47): `50 * 1024 * 1024`. -/
def TELEGRAM_FILE_LIMIT : Nat := 50 * 1024 * 1024

/-- Substring test, JS `String.prototype.includes`. -/
def startsWithL : List Char → List Char → Bool
  | [], _ => true
  | _ :: _, [] => false
  | p :: ps, c :: cs => p == c && startsWithL ps cs

/-- Embeds `hay.includes(pat)` on char lists. -/
def containsSub (hay pat : List Char) : Bool :=
  startsWithL pat hay ||
    (match hay with
     | [] => false
     | _ :: t => containsSub t pat)

/-- Embeds `hay.includes(pat)` on strings. -/
def strContains (hay pat : String) : Bool := containsSub hay.data pat.data

/-- Embeds `file.startsWith(prefixStr)` (JS, exact and case-sensitive). -/
def strStartsWith (s pat : String) : Bool := startsWithL pat.data s.data

/-- Oracle for everything one `processClip` invocation observes. -/
structure PipeEnv where
  ytdlpOk : Bool
  ytdlpStderr : String
  ytdlpErrMsg : String
  foundDownload : Option String
  ffmpegOk : Bool
  ffmpegStderr : String
  ffmpegErrMsg : String
  outputSize : Nat
  sendOk : Bool
  sendErrMsg : String
deriving DecidableEq

/-- Embeds `stderr || error.message` in `runCommand` (`bot.js` 162). -/
def stderrOrMsg (stderr msg : String) : String := if stderr == "" then msg else stderr

/-- Final state of one invocation as the user sees it. -/
structure PipeResult where
  finalStatus : String
  sent : Bool
deriving DecidableEq

/-- TOO_LARGE status (`bot.js` 258-261). -/
def tooLargeMsg : String :=
  "⚠️  The clip is too large to send via Telegram (> 50 MB).\nTry a shorter segment or choose audio-only for a smaller file."

/-- DONE status (`bot.js` 287). -/
def doneMsg : String := "✅  Done! Enjoy your clip."

/-- Common head of every failure message (`bot.js` 292). -/
def failBase : String := "❌  Something went wrong while processing your clip.\n\n"

/-- Download-specific explanation (`bot.js` 295). -/
def downloadFailMsg : String :=
  failBase ++ "Could not download from YouTube. Please check that the link is valid and the video is publicly available."

/-- Trim-specific explanation (`bot.js` 297). -/
def ffmpegFailMsg : String :=
  failBase ++ "Failed to cut the clip. The timestamps might be outside the video duration."

/-- Error thrown when the size check sees an empty file (`bot.js` 266). -/
def emptyFileErr : String :=
  "Output file is empty — the timestamps may be outside the video duration."

/-- Error thrown when the probe finds no downloaded file (`bot.js` 229). -/
def notFoundErr : String := "Download completed but file not found on disk."

/-- The `catch` block's message translation (`bot.js` 292-300). -/
def classifyError (m : String) : String :=
  if strContains m "yt-dlp" then downloadFailMsg
  else if strContains m "ffmpeg" then ffmpegFailMsg
  else failBase ++ ("Error: " ++ m)

/-- The `try` block of `processClip` (`bot.js` 203-287): download, probe,
cut, size check (too-large early return, empty-file throw), upload. -/
def tryBlock (env : PipeEnv) : Except String PipeResult :=
  if !env.ytdlpOk then
    Except.error ("yt-dlp failed: " ++ stderrOrMsg env.ytdlpStderr env.ytdlpErrMsg)
  else
    match env.foundDownload with
    | none => Except.error notFoundErr
    | some _ =>
      if !env.ffmpegOk then
        Except.error ("ffmpeg failed: " ++ stderrOrMsg env.ffmpegStderr env.ffmpegErrMsg)
      else if env.outputSize > TELEGRAM_FILE_LIMIT then
        Except.ok { finalStatus := tooLargeMsg, sent := false }
      else if env.outputSize == 0 then
        Except.error emptyFileErr
      else if env.sendOk then
        Except.ok { finalStatus := doneMsg, sent := true }
      else
        Except.error env.sendErrMsg

/-- Embeds `try`/`catch` of `processClip`: the user-facing outcome. -/
def runPipeline (env : PipeEnv) : PipeResult :=
  match tryBlock env with
  | Except.ok r => r
  | Except.error m => { finalStatus := classifyError m, sent := false }

/-- The temp directory: file basenames present, plus which `unlinkSync` calls
would throw and whether `readdirSync` succeeds.  Directory listings have no
duplicate names, so deletion removes every occurrence. -/
structure TmpFS where
  files : List String
  undeletable : List String
  readDirOk : Bool
deriving DecidableEq

/-- Embeds `cleanupFile` (`bot.js` 336-340): delete if present (`existsSync` then
`unlinkSync`), swallow any throw from the delete. -/
def cleanupFile (fs : TmpFS) (f : String) : TmpFS :=
  if f ∈ fs.files ∧ f ∉ fs.undeletable then
    { fs with files := fs.files.filter (fun g => g ≠ f) }
  else fs

/-- Embeds `cleanupGlob` (`bot.js` 345-356): snapshot the listing, delete every file
whose name starts with the prefix; swallow a `readdirSync` failure. -/
def cleanupGlob (fs : TmpFS) (pre : String) : TmpFS :=
  if fs.readDirOk then
    fs.files.foldl (fun acc f => if strStartsWith f pre then cleanupFile acc f else acc) fs
  else fs

/-- Basename of the expected download path (`bot.js` 191). -/
def downloadName (uid : String) (isAudio : Bool) : String :=
  uid ++ "_raw." ++ (if isAudio then "webm" else "mp4")

/-- Basename of the output path (`bot.js` 190-192). -/
def outputName (uid : String) (isAudio : Bool) : String :=
  uid ++ "_clip." ++ (if isAudio then "mp3" else "mp4")

/-- The `finally` block (`bot.js` 304-310): delete the download path, the
output path, then glob-delete `` `${uid}_raw.*` `` (whose basename prefix
after stripping `.*` is `` `${uid}_raw` ``). -/
def cleanupAll (uid : String) (isAudio : Bool) (fs : TmpFS) : TmpFS :=
  cleanupGlob (cleanupFile (cleanupFile fs (downloadName uid isAudio)) (outputName uid isAudio))
    (uid ++ "_raw")

/-- Whole `processClip` invocation: outcome from the `try`/`catch`, temp
directory after the `finally`. -/
def processClip (uid : String) (isAudio : Bool) (env : PipeEnv) (fs : TmpFS) :
    PipeResult × TmpFS :=
  (runPipeline env, cleanupAll uid isAudio fs)

/-! ### Helper lemmas -/

theorem dropWhile_eq_self_of (p : Char → Bool) (l : List Char)
    (h : ∀ c ∈ l, p c = false) : l.dropWhile p = l := by
  cases l with
  | nil => rfl
  | cons c t =>
    unfold List.dropWhile
    rw [h c (by simp)]

theorem trimL_eq_self (l : List Char) (h : ∀ c ∈ l, isJsSpaceB c = false) :
    trimL l = l := by
  unfold trimL
  rw [dropWhile_eq_self_of _ _ h, dropWhile_eq_self_of, List.reverse_reverse]
  intro c hc
  exact h c (List.mem_reverse.mp hc)

theorem splitBy_cons (p : Char → Bool) (c : Char) (rest : List Char) :
    splitBy p (c :: rest) =
      if p c then [] :: splitBy p rest
      else
        match splitBy p rest with
        | [] => [[c]]
        | g :: gs => (c :: g) :: gs := rfl

theorem splitBy_no_sep (p : Char → Bool) (xs : List Char)
    (h : ∀ c ∈ xs, p c = false) : splitBy p xs = [xs] := by
  induction xs with
  | nil => rfl
  | cons c t ih =>
    rw [splitBy_cons, h c (by simp), ih (fun d hd => h d (by simp [hd]))]
    simp

theorem splitBy_append_sep (p : Char → Bool) (sc : Char) (xs ys : List Char)
    (hsc : p sc = true) (h : ∀ c ∈ xs, p c = false) :
    splitBy p (xs ++ sc :: ys) = xs :: splitBy p ys := by
  induction xs with
  | nil => simp [splitBy_cons, hsc]
  | cons c t ih =>
    have hrec := ih (fun d hd => h d (by simp [hd]))
    rw [List.cons_append, splitBy_cons, h c (by simp), hrec]
    simp

theorem seqOptions_some_length (L : List (Option Int)) (vals : List Int)
    (h : seqOptions L = some vals) : vals.length = L.length := by
  induction L generalizing vals with
  | nil => unfold seqOptions at h; injection h with h; subst h; rfl
  | cons o t ih =>
    cases o with
    | none => exact absurd h (by unfold seqOptions; simp)
    | some v =>
      unfold seqOptions at h
      cases ht : seqOptions t with
      | none => rw [ht] at h; simp at h
      | some vs =>
        rw [ht] at h
        have h2 : some (v :: vs) = some vals := h
        injection h2 with h2
        rw [← h2]
        simp [ih vs ht]

theorem seqOptions_mem_none (L : List (Option Int)) (h : none ∈ L) :
    seqOptions L = none := by
  induction L with
  | nil => simp at h
  | cons o t ih =>
    cases o with
    | none => rfl
    | some v =>
      unfold seqOptions
      rw [ih (by simpa using h)]
      rfl

/-- All facts about `String(n).padStart(2,'0')` needed for n < 100: the
characters are digits (hence neither whitespace nor separators), and JS
`Number` reads the value back. -/
theorem pad_facts : ∀ n : Nat, n < 100 →
    (padStart2 (natDecimal n)).all
      (fun c => isDigitB c && !isJsSpaceB c && !isSepB c) = true ∧
    jsNumberL (padStart2 (natDecimal n)) = some (Int.ofNat n) := by decide

theorem checkAndFmt_some (h m s : Int) (out : String) (hc : checkAndFmt h m s = some out) :
    0 ≤ h ∧ 0 ≤ m ∧ m ≤ 59 ∧ 0 ≤ s ∧ s ≤ 59 ∧ out = fmtHMS h.toNat m.toNat s.toNat := by
  unfold checkAndFmt at hc
  split at hc
  · exact absurd hc (by simp)
  · next hcond =>
      injection hc with hc
      refine ⟨?_, ?_, ?_, ?_, ?_, hc.symm⟩ <;>
        (simp only [Bool.or_eq_true, decide_eq_true_eq, not_or] at hcond; omega)

theorem all_pred_space (l : List Char)
    (hl : l.all (fun c => isDigitB c && !isJsSpaceB c && !isSepB c) = true) :
    ∀ c ∈ l, isJsSpaceB c = false := by
  intro c hc
  have := List.all_eq_true.mp hl c hc
  simp only [Bool.and_eq_true, Bool.not_eq_true'] at this
  exact this.1.2

theorem all_pred_sep (l : List Char)
    (hl : l.all (fun c => isDigitB c && !isJsSpaceB c && !isSepB c) = true) :
    ∀ c ∈ l, isSepB c = false := by
  intro c hc
  have := List.all_eq_true.mp hl c hc
  simp only [Bool.and_eq_true, Bool.not_eq_true'] at this
  exact this.2

/-- C4: `normaliseTimestamp` splits on `:`/`.` into 1-3 groups read
right-to-left as seconds/minutes/hours, rejects NaN groups, more than 3
groups, out-of-range minutes or seconds, or negative hours, and otherwise
returns a zero-padded `HH:MM:SS` string; with the five spec examples. -/
theorem normalise_timestamp_cases :
    normaliseTimestamp "20.50" = some "00:20:50" ∧
    normaliseTimestamp "1:02:15" = some "01:02:15" ∧
    normaliseTimestamp "5" = some "00:00:05" ∧
    normaliseTimestamp "60:00" = none ∧
    normaliseTimestamp "1:2:3:4" = none ∧
    (∀ h m s : Int, (s < 0 ∨ 59 < s ∨ m < 0 ∨ 59 < m ∨ h < 0) → checkAndFmt h m s = none) ∧
    (∀ raw : String, 3 < (splitBy isSepB (trimL raw.data)).length →
       normaliseTimestamp raw = none) ∧
    (∀ raw : String, (∃ g ∈ splitBy isSepB (trimL raw.data), jsNumberL g = none) →
       normaliseTimestamp raw = none) ∧
    (∀ raw out, normaliseTimestamp raw = some out →
       ∃ h m s : Int, 0 ≤ h ∧ 0 ≤ m ∧ m ≤ 59 ∧ 0 ≤ s ∧ s ≤ 59 ∧
         out = fmtHMS h.toNat m.toNat s.toNat) := by
  refine ⟨by decide, by decide, by decide, by decide, by decide, ?_, ?_, ?_, ?_⟩
  · intro h m s hd
    unfold checkAndFmt
    rw [if_pos]
    simp only [Bool.or_eq_true, decide_eq_true_eq]
    omega
  · intro raw hlen
    simp only [normaliseTimestamp]
    cases hseq : seqOptions ((splitBy isSepB (trimL raw.data)).map jsNumberL) with
    | none => rfl
    | some vals =>
      have hv : 3 < vals.length := by
        rw [seqOptions_some_length _ _ hseq, List.length_map]
        exact hlen
      rcases vals with _ | ⟨a, _ | ⟨b, _ | ⟨c, _ | ⟨d, t⟩⟩⟩⟩
      · simp at hv
      · simp at hv
      · simp at hv
      · simp at hv
      · rfl
  · intro raw hg
    obtain ⟨g, hmem, hnone⟩ := hg
    have hmap : (none : Option Int) ∈ (splitBy isSepB (trimL raw.data)).map jsNumberL := by
      rw [← hnone]
      exact List.mem_map_of_mem jsNumberL hmem
    simp only [normaliseTimestamp]
    rw [seqOptions_mem_none _ hmap]
  · intro raw out hout
    simp only [normaliseTimestamp] at hout
    cases hseq : seqOptions ((splitBy isSepB (trimL raw.data)).map jsNumberL) with
    | none => rw [hseq] at hout; exact absurd hout (by simp)
    | some vals =>
      rw [hseq] at hout
      rcases vals with _ | ⟨a, _ | ⟨b, _ | ⟨c, _ | ⟨d, t⟩⟩⟩⟩
      · exact absurd hout (by simp)
      · obtain ⟨h1, h2, h3, h4, h5, h6⟩ := checkAndFmt_some 0 0 a out hout
        exact ⟨0, 0, a, h1, h2, h3, h4, h5, h6⟩
      · obtain ⟨h1, h2, h3, h4, h5, h6⟩ := checkAndFmt_some 0 a b out hout
        exact ⟨0, a, b, h1, h2, h3, h4, h5, h6⟩
      · obtain ⟨h1, h2, h3, h4, h5, h6⟩ := checkAndFmt_some a b c out hout
        exact ⟨a, b, c, h1, h2, h3, h4, h5, h6⟩
      · exact absurd hout (by simp)

/-- C4 witness: the more-than-3-groups rejection applied at a concrete input. -/
theorem normalise_timestamp_cases_witness : normaliseTimestamp "1:2:3:4:5" = none :=
  normalise_timestamp_cases.2.2.2.2.2.2.1 "1:2:3:4:5" (by decide)

/-- C9: `normaliseTimestamp` is the identity (modulo `some`) on every
canonical zero-padded `HH:MM:SS` string (two-digit fields, `hours ≤ 99`,
minutes and seconds in `[0,59]`). -/
theorem normalise_timestamp_idempotent :
    ∀ h m s : Nat, h ≤ 99 → m ≤ 59 → s ≤ 59 →
      normaliseTimestamp (fmtHMS h m s) = some (fmtHMS h m s) := by
  intro h m s hh hm hs
  obtain ⟨pah, nh⟩ := pad_facts h (by omega)
  obtain ⟨pam, nm⟩ := pad_facts m (by omega)
  obtain ⟨pas, ns⟩ := pad_facts s (by omega)
  have hdata : (fmtHMS h m s).data =
      padStart2 (natDecimal h) ++ ':' ::
        (padStart2 (natDecimal m) ++ ':' :: padStart2 (natDecimal s)) := rfl
  have hall : ∀ c ∈ (fmtHMS h m s).data, isJsSpaceB c = false := by
    rw [hdata]
    intro c hc
    simp only [List.mem_append, List.mem_cons] at hc
    rcases hc with h1 | h2 | h3 | h4 | h5
    · exact all_pred_space _ pah c h1
    · rw [h2]; decide
    · exact all_pred_space _ pam c h3
    · rw [h4]; decide
    · exact all_pred_space _ pas c h5
  simp only [normaliseTimestamp]
  rw [hdata, trimL_eq_self _ (hdata ▸ hall),
    splitBy_append_sep isSepB ':' _ _ (by decide) (all_pred_sep _ pah),
    splitBy_append_sep isSepB ':' _ _ (by decide) (all_pred_sep _ pam),
    splitBy_no_sep isSepB _ (all_pred_sep _ pas)]
  simp only [List.map_cons, List.map_nil, nh, nm, ns, seqOptions, Option.map_some]
  show checkAndFmt (Int.ofNat h) (Int.ofNat m) (Int.ofNat s) = some (fmtHMS h m s)
  unfold checkAndFmt
  rw [if_neg]
  · simp
  · simp only [Bool.or_eq_true, decide_eq_true_eq, Int.ofNat_eq_coe]
    omega

/-- C9 witness at `01:02:03`. -/
theorem normalise_timestamp_idempotent_witness :
    normaliseTimestamp (fmtHMS 1 2 3) = some (fmtHMS 1 2 3) :=
  normalise_timestamp_idempotent 1 2 3 (by decide) (by decide) (by decide)

/-- C5: `extractTimestamps` takes the first two regex candidates in order,
normalises both, and returns `none` when fewer than two candidates exist or
either normalisation fails — never a partial result. -/
theorem extract_timestamps_cases :
    extractTimestamps "from 1:20 to 2:45" = some ⟨"00:01:20", "00:02:45"⟩ ∧
    extractTimestamps "only one 1:20 here" = none ∧
    (∀ text : String, (tsMatches text).length < 2 → extractTimestamps text = none) ∧
    (∀ text m0 m1 rest, tsMatches text = m0 :: m1 :: rest →
       (normaliseTimestamp m0 = none ∨ normaliseTimestamp m1 = none) →
       extractTimestamps text = none) ∧
    (∀ text p, extractTimestamps text = some p →
       ∃ m0 m1 rest, tsMatches text = m0 :: m1 :: rest ∧
         normaliseTimestamp m0 = some p.startTime ∧
         normaliseTimestamp m1 = some p.endTime) := by
  refine ⟨by decide, by decide, ?_, ?_, ?_⟩
  · intro text hlt
    unfold extractTimestamps
    cases hm : tsMatches text with
    | nil => rfl
    | cons m0 t =>
      cases t with
      | nil => rfl
      | cons m1 r =>
        rw [hm] at hlt
        simp at hlt
        omega
  · intro text m0 m1 rest hm hd
    have hred : extractTimestamps text =
        match normaliseTimestamp m0, normaliseTimestamp m1 with
        | some s, some e => some ⟨s, e⟩
        | _, _ => none := by
      unfold extractTimestamps
      rw [hm]
    rw [hred]
    rcases hd with h0 | h1
    · rw [h0]
    · rw [h1]
      cases normaliseTimestamp m0 <;> rfl
  · intro text p hp
    cases hm : tsMatches text with
    | nil =>
      unfold extractTimestamps at hp
      rw [hm] at hp
      exact absurd hp (by simp)
    | cons m0 t =>
      cases t with
      | nil =>
        unfold extractTimestamps at hp
        rw [hm] at hp
        exact absurd hp (by simp)
      | cons m1 r =>
        have hred : extractTimestamps text =
            match normaliseTimestamp m0, normaliseTimestamp m1 with
            | some s, some e => some ⟨s, e⟩
            | _, _ => none := by
          unfold extractTimestamps
          rw [hm]
        rw [hred] at hp
        cases h0 : normaliseTimestamp m0 with
        | none => rw [h0] at hp; exact absurd hp (by simp)
        | some a =>
          cases h1 : normaliseTimestamp m1 with
          | none => rw [h0, h1] at hp; exact absurd hp (by simp)
          | some b =>
            rw [h0, h1] at hp
            injection hp with hp
            exact ⟨m0, m1, r, rfl, by rw [← hp]; exact h0, by rw [← hp]; exact h1⟩

/-- C5 witness: the fewer-than-two-candidates rejection at a concrete input. -/
theorem extract_timestamps_cases_witness : extractTimestamps "nothing here" = none :=
  extract_timestamps_cases.2.2.1 "nothing here" (by decide)

theorem firstUrlMatch_sub :
    ∀ (cs l : List Char), firstUrlMatch cs = some l → ∃ pre post, pre ++ (l ++ post) = cs := by
  intro cs
  induction cs with
  | nil => intro l h; exact absurd h (by simp [firstUrlMatch])
  | cons c rest ih =>
    intro l h
    unfold firstUrlMatch at h
    cases hm : matchUrlAt (c :: rest) with
    | some n =>
      rw [hm] at h
      injection h with h
      exact ⟨[], (c :: rest).drop n, by rw [← h]; simp⟩
    | none =>
      rw [hm] at h
      obtain ⟨pre, post, hp⟩ := ih l h
      exact ⟨c :: pre, post, by rw [List.cons_append, hp]⟩

/-- C8: `extractYouTubeUrl` accepts the four URL shapes with or without
scheme and `www.`, returns `none` on text with no such pattern, and always
returns the matched substring exactly as it occurs in the input. -/
theorem extract_url_cases :
    extractYouTubeUrl "watch https://www.youtube.com/watch?v=dQw4w9WgXcQ now"
      = some "https://www.youtube.com/watch?v=dQw4w9WgXcQ" ∧
    extractYouTubeUrl "youtube.com/watch?v=abc" = some "youtube.com/watch?v=abc" ∧
    extractYouTubeUrl "https://youtu.be/abc" = some "https://youtu.be/abc" ∧
    extractYouTubeUrl "youtu.be/abc" = some "youtu.be/abc" ∧
    extractYouTubeUrl "www.youtube.com/shorts/Xy-9_q" = some "www.youtube.com/shorts/Xy-9_q" ∧
    extractYouTubeUrl "http://youtube.com/shorts/ab" = some "http://youtube.com/shorts/ab" ∧
    extractYouTubeUrl "youtube.com/live/stream1" = some "youtube.com/live/stream1" ∧
    extractYouTubeUrl "https://www.youtu.be/clip9" = some "https://www.youtu.be/clip9" ∧
    extractYouTubeUrl "no video link here, just 1:20 to 2:45" = none ∧
    (∀ text u, extractYouTubeUrl text = some u →
       ∃ pre post, pre ++ (u.data ++ post) = text.data) := by
  refine ⟨by decide, by decide, by decide, by decide, by decide, by decide, by decide,
    by decide, by decide, ?_⟩
  intro text u hu
  unfold extractYouTubeUrl at hu
  cases hf : firstUrlMatch text.data with
  | none => rw [hf] at hu; exact absurd hu (by simp)
  | some l =>
    rw [hf] at hu
    injection hu with hu
    obtain ⟨pre, post, hp⟩ := firstUrlMatch_sub _ _ hf
    exact ⟨pre, post, by rw [← hu]; exact hp⟩

/-- C8 witness: the as-found substring property at a concrete input. -/
theorem extract_url_cases_witness :
    ∃ pre post, pre ++ (("youtu.be/abc").data ++ post) = ("see youtu.be/abc ok").data :=
  extract_url_cases.2.2.2.2.2.2.2.2.2 "see youtu.be/abc ok" "youtu.be/abc" (by decide)

/-! ### Pipeline lemmas -/

theorem classify_ytdlp (t : String) :
    classifyError ("yt-dlp failed: " ++ t) = downloadFailMsg := by
  unfold classifyError
  rw [if_pos (show strContains ("yt-dlp failed: " ++ t) "yt-dlp" = true from rfl)]

theorem cleanupFile_fields (fs : TmpFS) (g : String) :
    (cleanupFile fs g).undeletable = fs.undeletable ∧
    (cleanupFile fs g).readDirOk = fs.readDirOk := by
  unfold cleanupFile
  split <;> exact ⟨rfl, rfl⟩

theorem cleanupFile_mem_sub (fs : TmpFS) (g x : String)
    (hx : x ∈ (cleanupFile fs g).files) : x ∈ fs.files := by
  unfold cleanupFile at hx
  split at hx
  · exact (List.mem_filter.mp hx).1
  · exact hx

theorem cleanupFile_not_mem (fs : TmpFS) (g x : String) (hx : x ∉ fs.files) :
    x ∉ (cleanupFile fs g).files :=
  fun h => hx (cleanupFile_mem_sub fs g x h)

theorem cleanupFile_removes (fs : TmpFS) (g : String) (hdel : g ∉ fs.undeletable) :
    g ∉ (cleanupFile fs g).files := by
  unfold cleanupFile
  split
  · intro hmem
    have := (List.mem_filter.mp hmem).2
    simp at this
  · next hcond =>
      intro hmem
      exact hcond ⟨hmem, hdel⟩

theorem cleanupFold_not_mem (pre : String) (L : List String) (acc : TmpFS) (x : String)
    (hx : x ∉ acc.files) :
    x ∉ (L.foldl (fun a g => if strStartsWith g pre then cleanupFile a g else a) acc).files := by
  induction L generalizing acc with
  | nil => exact hx
  | cons g t ih =>
    simp only [List.foldl_cons]
    apply ih
    by_cases hp : strStartsWith g pre = true
    · rw [if_pos hp]
      exact cleanupFile_not_mem _ _ _ hx
    · rw [if_neg hp]
      exact hx

theorem cleanupFold_removes (pre f : String) (hp : strStartsWith f pre = true) :
    ∀ (L : List String) (acc : TmpFS), f ∈ L → f ∉ acc.undeletable →
      f ∉ (L.foldl (fun a g => if strStartsWith g pre then cleanupFile a g else a) acc).files := by
  intro L
  induction L with
  | nil => intro acc hf _; simp at hf
  | cons g t ih =>
    intro acc hf hdel
    simp only [List.foldl_cons]
    rcases List.mem_cons.mp hf with heq | hmem
    · subst heq
      rw [if_pos hp]
      exact cleanupFold_not_mem pre t _ f (cleanupFile_removes acc f hdel)
    · apply ih _ hmem
      by_cases hg : strStartsWith g pre = true
      · rw [if_pos hg, (cleanupFile_fields acc g).1]
        exact hdel
      · rw [if_neg hg]
        exact hdel

theorem cleanupGlob_not_mem (fs : TmpFS) (pre x : String) (hx : x ∉ fs.files) :
    x ∉ (cleanupGlob fs pre).files := by
  unfold cleanupGlob
  split
  · exact cleanupFold_not_mem pre fs.files fs x hx
  · exact hx

theorem cleanupGlob_removes (fs : TmpFS) (pre f : String) (hrd : fs.readDirOk = true)
    (hmem : f ∈ fs.files) (hdel : f ∉ fs.undeletable) (hp : strStartsWith f pre = true) :
    f ∉ (cleanupGlob fs pre).files := by
  unfold cleanupGlob
  rw [if_pos hrd]
  exact cleanupFold_removes pre f hp fs.files fs hmem hdel

/-- C1: the size check treats an exactly-zero output as the FAILED outcome
(with the timestamps-outside-duration text), never TOO_LARGE; a size strictly
above the fixed 52,428,800-byte ceiling yields the TOO_LARGE terminal outcome
with the shorter-segment/audio-only advice and nothing sent. -/
theorem pipeline_size_check_outcomes :
    TELEGRAM_FILE_LIMIT = 52428800 ∧
    ∀ env : PipeEnv, env.ytdlpOk = true → env.foundDownload.isSome = true →
      env.ffmpegOk = true →
      ((env.outputSize = 0 →
         runPipeline env =
           { finalStatus := failBase ++ ("Error: " ++ emptyFileErr), sent := false } ∧
         (runPipeline env).finalStatus ≠ tooLargeMsg) ∧
       (env.outputSize > TELEGRAM_FILE_LIMIT →
         runPipeline env = { finalStatus := tooLargeMsg, sent := false })) := by
  refine ⟨by decide, ?_⟩
  intro env h1 h2 h3
  cases hfd : env.foundDownload with
  | none => rw [hfd] at h2; simp at h2
  | some d =>
    constructor
    · intro hz
      have ht : tryBlock env = Except.error emptyFileErr := by
        unfold tryBlock
        simp only [h1, h3, hfd, hz]
        rfl
      have hr : runPipeline env =
          { finalStatus := classifyError emptyFileErr, sent := false } := by
        unfold runPipeline
        rw [ht]
      rw [hr]
      refine ⟨by decide, by decide⟩
    · intro hgt
      have ht : tryBlock env = Except.ok { finalStatus := tooLargeMsg, sent := false } := by
        unfold tryBlock
        simp only [h1, h3, hfd, Bool.not_true, Bool.false_eq_true, if_false]
        rw [if_pos hgt]
      unfold runPipeline
      rw [ht]

/-- C1 witness: the spec's 60 MiB end-to-end scenario. -/
theorem pipeline_size_check_outcomes_witness :
    runPipeline { ytdlpOk := true, ytdlpStderr := "", ytdlpErrMsg := "",
                  foundDownload := some "f_raw.mp4", ffmpegOk := true, ffmpegStderr := "",
                  ffmpegErrMsg := "", outputSize := 62914560, sendOk := true,
                  sendErrMsg := "" } =
      { finalStatus := tooLargeMsg, sent := false } :=
  ((pipeline_size_check_outcomes.2
      { ytdlpOk := true, ytdlpStderr := "", ytdlpErrMsg := "",
        foundDownload := some "f_raw.mp4", ffmpegOk := true, ffmpegStderr := "",
        ffmpegErrMsg := "", outputSize := 62914560, sendOk := true,
        sendErrMsg := "" } rfl rfl rfl).2 (by decide))

/-- C6 counterexample: when `yt-dlp` exits zero but the probe finds no file,
the thrown message (`notFoundErr`) contains neither "yt-dlp" nor "ffmpeg",
so the user sees the generic raw-error status — not the download-specific
link-may-be-invalid explanation the claim asserts for this case. -/
theorem download_probe_message_cex :
    (runPipeline { ytdlpOk := true, ytdlpStderr := "", ytdlpErrMsg := "",
                   foundDownload := none, ffmpegOk := true, ffmpegStderr := "",
                   ffmpegErrMsg := "", outputSize := 1, sendOk := true,
                   sendErrMsg := "" }).finalStatus ≠ downloadFailMsg ∧
    (runPipeline { ytdlpOk := true, ytdlpStderr := "", ytdlpErrMsg := "",
                   foundDownload := none, ffmpegOk := true, ffmpegStderr := "",
                   ffmpegErrMsg := "", outputSize := 1, sendOk := true,
                   sendErrMsg := "" }).finalStatus =
      failBase ++ ("Error: " ++ notFoundErr) := by
  exact ⟨by decide, by decide⟩

/-- C6 (amended): a non-zero `yt-dlp` exit yields FAILED with the
download-specific explanation (the thrown message always carries the tool
name); a zero exit with no file found yields FAILED with the generic status
surfacing the raw `notFoundErr` text. -/
theorem download_failure_messages :
    ∀ env : PipeEnv,
      (env.ytdlpOk = false →
        runPipeline env = { finalStatus := downloadFailMsg, sent := false }) ∧
      (env.ytdlpOk = true → env.foundDownload = none →
        runPipeline env =
          { finalStatus := failBase ++ ("Error: " ++ notFoundErr), sent := false }) := by
  intro env
  constructor
  · intro h
    have ht : tryBlock env =
        Except.error ("yt-dlp failed: " ++ stderrOrMsg env.ytdlpStderr env.ytdlpErrMsg) := by
      unfold tryBlock
      simp only [h, Bool.not_false, if_true]
    have hr : runPipeline env = { finalStatus := classifyError ("yt-dlp failed: " ++ stderrOrMsg env.ytdlpStderr env.ytdlpErrMsg), sent := false } := by
      unfold runPipeline
      rw [ht]
    rw [hr, classify_ytdlp]
  · intro h1 h2
    have ht : tryBlock env = Except.error notFoundErr := by
      unfold tryBlock
      simp only [h1, h2, Bool.not_true, Bool.false_eq_true, if_false]
    have hr : runPipeline env = { finalStatus := classifyError notFoundErr, sent := false } := by
      unfold runPipeline
      rw [ht]
    rw [hr]
    decide

/-- C6 witness (for the amended claim): a failed download tool run. -/
theorem download_failure_messages_witness :
    runPipeline { ytdlpOk := false, ytdlpStderr := "HTTP Error 403", ytdlpErrMsg := "",
                  foundDownload := none, ffmpegOk := true, ffmpegStderr := "",
                  ffmpegErrMsg := "", outputSize := 1, sendOk := true,
                  sendErrMsg := "" } =
      { finalStatus := downloadFailMsg, sent := false } :=
  (download_failure_messages
      { ytdlpOk := false, ytdlpStderr := "HTTP Error 403", ytdlpErrMsg := "",
        foundDownload := none, ffmpegOk := true, ffmpegStderr := "",
        ffmpegErrMsg := "", outputSize := 1, sendOk := true,
        sendErrMsg := "" }).1 rfl

/-- C3: on every exit path of one `processClip` invocation the `finally`
block attempts deletion of the expected download path, the output path, and
every listed file sharing the download's base-name prefix; those deletions
(and their failures) never change the user-facing outcome, which depends
only on the pipeline oracle. -/
theorem pipeline_cleanup_every_path :
    ∀ (uid : String) (isAudio : Bool) (env : PipeEnv) (fs : TmpFS),
      (processClip uid isAudio env fs).1 = runPipeline env ∧
      (∀ fs2, (processClip uid isAudio env fs2).1 = (processClip uid isAudio env fs).1) ∧
      (processClip uid isAudio env fs).2 = cleanupAll uid isAudio fs ∧
      (∀ f, f ∉ fs.undeletable →
        (f = downloadName uid isAudio ∨ f = outputName uid isAudio ∨
          (fs.readDirOk = true ∧ f ∈ fs.files ∧
           strStartsWith f (uid ++ "_raw") = true)) →
        f ∉ ((processClip uid isAudio env fs).2).files) := by
  intro uid ia env fs
  refine ⟨rfl, fun fs2 => rfl, rfl, ?_⟩
  intro f hdel hcase
  show f ∉ (cleanupAll uid ia fs).files
  unfold cleanupAll
  rcases hcase with h1 | h2 | h3
  · subst h1
    apply cleanupGlob_not_mem
    apply cleanupFile_not_mem
    exact cleanupFile_removes fs _ hdel
  · subst h2
    apply cleanupGlob_not_mem
    apply cleanupFile_removes
    rw [(cleanupFile_fields fs _).1]
    exact hdel
  · obtain ⟨hrd, hmem, hp⟩ := h3
    by_cases hm2 :
      f ∈ (cleanupFile (cleanupFile fs (downloadName uid ia)) (outputName uid ia)).files
    · apply cleanupGlob_removes
      · rw [(cleanupFile_fields _ _).2, (cleanupFile_fields _ _).2]
        exact hrd
      · exact hm2
      · rw [(cleanupFile_fields _ _).1, (cleanupFile_fields _ _).1]
        exact hdel
      · exact hp
    · exact cleanupGlob_not_mem _ _ _ hm2

/-- C3 witness: an extension variant of the download is removed while the
outcome is the oracle's outcome, on concrete inputs. -/
theorem pipeline_cleanup_every_path_witness :
    "ab_raw.webm" ∉
      ((processClip "ab" false
          { ytdlpOk := true, ytdlpStderr := "", ytdlpErrMsg := "",
            foundDownload := some "ab_raw.webm", ffmpegOk := true, ffmpegStderr := "",
            ffmpegErrMsg := "", outputSize := 7, sendOk := true, sendErrMsg := "" }
          { files := ["ab_raw.mp4", "ab_raw.webm", "keep.txt"], undeletable := [],
            readDirOk := true }).2).files :=
  (pipeline_cleanup_every_path "ab" false
      { ytdlpOk := true, ytdlpStderr := "", ytdlpErrMsg := "",
        foundDownload := some "ab_raw.webm", ffmpegOk := true, ffmpegStderr := "",
        ffmpegErrMsg := "", outputSize := 7, sendOk := true, sendErrMsg := "" }
      { files := ["ab_raw.mp4", "ab_raw.webm", "keep.txt"], undeletable := [],
        readDirOk := true }).2.2.2 "ab_raw.webm" (by simp)
    (Or.inr (Or.inr ⟨rfl, by simp, by decide⟩))

/-! ### Store lemmas and handler theorems -/

theorem find_filter_none (t : List (Int × PendingRequest)) (c : Int) :
    (t.filter (fun e => e.1 != c)).find? (fun e => e.1 == c) = none := by
  induction t with
  | nil => rfl
  | cons e r ih =>
    rw [List.filter_cons]
    by_cases h : e.1 = c
    · rw [if_neg (by simp [h])]
      exact ih
    · rw [if_pos (by simp [h])]
      rw [List.find?_cons_of_neg _ (by simp [h])]
      exact ih

theorem storeGet_erase (s : Store) (c : Int) : storeGet (storeErase s c) c = none := by
  unfold storeGet storeErase
  rw [find_filter_none]

/-- C2: a message carrying both a URL and a timestamp pair is stored only
when `toSeconds start < toSeconds end`; on `start ≥ end` the pair is echoed
back in the rejection and the store is untouched, so the start-before-end
invariant holds of every entry ever present (both handlers preserve it). -/
theorem message_handler_ordering :
    ∀ (store : Store) (chatId : Int) (msgText : String),
      (∀ u p, extractYouTubeUrl (jsTrim msgText) = some u →
         extractTimestamps (jsTrim msgText) = some p →
         ((toSeconds p.startTime ≥ toSeconds p.endTime →
            onMessage store chatId msgText =
              (store, rejectOrderMsg p.startTime p.endTime)) ∧
          (toSeconds p.startTime < toSeconds p.endTime →
            onMessage store chatId msgText =
              (storePut store chatId ⟨u, p.startTime, p.endTime⟩,
               askFormatMsg u p.startTime p.endTime)))) ∧
      ((∀ e ∈ store, toSeconds e.2.startTime < toSeconds e.2.endTime) →
        ∀ e ∈ (onMessage store chatId msgText).1,
          toSeconds e.2.startTime < toSeconds e.2.endTime) ∧
      (∀ (data : String),
        (∀ e ∈ store, toSeconds e.2.startTime < toSeconds e.2.endTime) →
        ∀ e ∈ (onCallback store chatId data).1,
          toSeconds e.2.startTime < toSeconds e.2.endTime) := by
  intro store chatId t
  have key : ∀ u p, extractYouTubeUrl (jsTrim t) = some u →
      extractTimestamps (jsTrim t) = some p →
      onMessage store chatId t =
        (if toSeconds p.startTime ≥ toSeconds p.endTime then
          (store, rejectOrderMsg p.startTime p.endTime)
         else
          (storePut store chatId ⟨u, p.startTime, p.endTime⟩,
           askFormatMsg u p.startTime p.endTime)) := by
    intro u p hu hp
    simp only [onMessage]
    rw [hu, hp]
  refine ⟨?_, ?_, ?_⟩
  · intro u p hu hp
    have hk := key u p hu hp
    constructor
    · intro hge
      rw [hk, if_pos hge]
    · intro hlt
      rw [hk, if_neg (by omega)]
  · intro hinv e he
    cases hu : extractYouTubeUrl (jsTrim t) with
    | none =>
      have hst : (onMessage store chatId t).1 = store := by
        simp only [onMessage]
        rw [hu]
        cases extractTimestamps (jsTrim t) <;> rfl
      rw [hst] at he
      exact hinv e he
    | some u =>
      cases hp : extractTimestamps (jsTrim t) with
      | none =>
        have hst : (onMessage store chatId t).1 = store := by
          simp only [onMessage]
          rw [hu, hp]
        rw [hst] at he
        exact hinv e he
      | some p =>
        have hk := key u p hu hp
        by_cases hge : toSeconds p.startTime ≥ toSeconds p.endTime
        · rw [hk, if_pos hge] at he
          exact hinv e he
        · rw [hk, if_neg hge] at he
          simp only [storePut, List.mem_cons] at he
          rcases he with heq | hmem
          · subst heq
            show toSeconds p.startTime < toSeconds p.endTime
            omega
          · exact hinv e (List.mem_filter.mp hmem).1
  · intro data hinv e he
    cases hg : storeGet store chatId with
    | none =>
      have hred : (onCallback store chatId data).1 = store := by
        unfold onCallback
        rw [hg]
      rw [hred] at he
      exact hinv e he
    | some r =>
      have hred : onCallback store chatId data =
          (if (data == "format_audio") = true then
            (storeErase store chatId, { acked := true, sentMessage := some processingMsg, removedKeyboard := true, pipeline := some (r.url, r.startTime, r.endTime, "audio") })
           else if (data == "format_video") = true then
            (storeErase store chatId, { acked := true, sentMessage := some processingMsg, removedKeyboard := true, pipeline := some (r.url, r.startTime, r.endTime, "video") })
           else
            (store, { acked := true, sentMessage := none, removedKeyboard := false, pipeline := none })) := by
        unfold onCallback
        rw [hg]
      by_cases h1 : (data == "format_audio") = true
      · rw [hred, if_pos h1] at he
        exact hinv e (List.mem_filter.mp he).1
      · by_cases h2 : (data == "format_video") = true
        · rw [hred, if_neg h1, if_pos h2] at he
          exact hinv e (List.mem_filter.mp he).1
        · rw [hred, if_neg h1, if_neg h2] at he
          exact hinv e he

/-- C2 witness: an out-of-order pair is rejected with the pair echoed and
nothing stored, at concrete inputs. -/
theorem message_handler_ordering_witness :
    onMessage ([] : Store) 0 "youtu.be/abc 2:45 to 1:20" =
      (([] : Store), rejectOrderMsg "00:02:45" "00:01:20") :=
  (((message_handler_ordering ([] : Store) 0 "youtu.be/abc 2:45 to 1:20").1
      "youtu.be/abc" ⟨"00:02:45", "00:01:20"⟩ (by decide) (by decide)).1 (by decide))

/-- C7: a format choice consumes the stored pending request exactly once —
when an entry exists it is removed (before the pipeline effect), when none
exists the selection is rejected with the resubmit message and no pipeline
starts, and after an erase a second lookup finds nothing. -/
theorem callback_consumes_pending_once :
    ∀ (store : Store) (chatId : Int),
      (∀ r, storeGet store chatId = some r →
        onCallback store chatId "format_audio" =
          (storeErase store chatId, { acked := true, sentMessage := some processingMsg, removedKeyboard := true, pipeline := some (r.url, r.startTime, r.endTime, "audio") }) ∧
        onCallback store chatId "format_video" =
          (storeErase store chatId, { acked := true, sentMessage := some processingMsg, removedKeyboard := true, pipeline := some (r.url, r.startTime, r.endTime, "video") })) ∧
      (∀ data, storeGet store chatId = none →
        onCallback store chatId data =
          (store, { acked := true, sentMessage := some noPendingMsg, removedKeyboard := false, pipeline := none })) ∧
      storeGet (storeErase store chatId) chatId = none := by
  intro store chatId
  refine ⟨?_, ?_, storeGet_erase store chatId⟩
  · intro r hr
    constructor
    · have hred : onCallback store chatId "format_audio" =
          (storeErase store chatId, { acked := true, sentMessage := some processingMsg, removedKeyboard := true, pipeline := some (r.url, r.startTime, r.endTime, "audio") }) := by
        unfold onCallback
        rw [hr]
        rfl
      exact hred
    · have hred : onCallback store chatId "format_video" =
          (storeErase store chatId, { acked := true, sentMessage := some processingMsg, removedKeyboard := true, pipeline := some (r.url, r.startTime, r.endTime, "video") }) := by
        unfold onCallback
        rw [hr]
        rfl
      exact hred
  · intro data hn
    have hred : onCallback store chatId data =
        (store, { acked := true, sentMessage := some noPendingMsg, removedKeyboard := false, pipeline := none }) := by
      unfold onCallback
      rw [hn]
    exact hred

/-- C7 witness: consuming a concrete pending request via the audio button. -/
theorem callback_consumes_pending_once_witness :
    onCallback [(5, ⟨"u", "00:00:01", "00:00:02"⟩)] 5 "format_audio" =
      ([], { acked := true, sentMessage := some processingMsg, removedKeyboard := true, pipeline := some ("u", "00:00:01", "00:00:02", "audio") }) :=
  ((callback_consumes_pending_once [(5, ⟨"u", "00:00:01", "00:00:02"⟩)] 5).1
    ⟨"u", "00:00:01", "00:00:02"⟩ rfl).1

/-- C10: with a pending request stored, a callback whose data is neither
format value is ignored after the acknowledgement — no message, no pipeline,
store untouched, and the request still selectable. -/
theorem callback_unknown_data_ignored :
    ∀ (store : Store) (chatId : Int) (data : String) (r : PendingRequest),
      storeGet store chatId = some r →
      data ≠ "format_audio" → data ≠ "format_video" →
      onCallback store chatId data =
        (store, { acked := true, sentMessage := none, removedKeyboard := false, pipeline := none }) ∧
      storeGet (onCallback store chatId data).1 chatId = some r := by
  intro store chatId data r hr h1 h2
  have hred : onCallback store chatId data =
      (if (data == "format_audio") = true then
        (storeErase store chatId, { acked := true, sentMessage := some processingMsg, removedKeyboard := true, pipeline := some (r.url, r.startTime, r.endTime, "audio") })
       else if (data == "format_video") = true then
        (storeErase store chatId, { acked := true, sentMessage := some processingMsg, removedKeyboard := true, pipeline := some (r.url, r.startTime, r.endTime, "video") })
       else
        (store, { acked := true, sentMessage := none, removedKeyboard := false, pipeline := none })) := by
    unfold onCallback
    rw [hr]
  have heq : onCallback store chatId data =
      (store, { acked := true, sentMessage := none, removedKeyboard := false, pipeline := none }) := by
    rw [hred, if_neg (by simp [h1]), if_neg (by simp [h2])]
  refine ⟨heq, ?_⟩
  rw [heq]
  exact hr

/-- C10 witness: an unknown callback value at a concrete store. -/
theorem callback_unknown_data_ignored_witness :
    onCallback [(1, ⟨"u", "00:00:01", "00:00:02"⟩)] 1 "something_else" =
      ([(1, ⟨"u", "00:00:01", "00:00:02"⟩)], { acked := true, sentMessage := none, removedKeyboard := false, pipeline := none }) :=
  (callback_unknown_data_ignored [(1, ⟨"u", "00:00:01", "00:00:02"⟩)] 1 "something_else"
    ⟨"u", "00:00:01", "00:00:02"⟩ rfl (by decide) (by decide)).1
